import Mathlib

/-!
Verification of the forecast pivot builder and query layer of the
impetus-planning-frontend repository.

The development shallowly embeds the pivot computation of the
ForecastDataTable component (helper functions getWeekNumber and
getWeekDateRange, and the pivotData memo), the query-key factory and hook
configuration of useForecastData, the activeFilters construction, and the
pagination logic of useForecastDataWithBrick.  JS numbers appearing in this
logic are integers, embedded as Int/Nat; JS Maps and objects are embedded
as insertion-ordered association lists; the JS Date boundary is embedded by
an explicit civil-calendar model.
-/

set_option maxHeartbeats 1000000

namespace Impetus

/-! ## Decimal rendering of numbers

JS template literals such as the week label interpolate numbers in decimal;
the rendering is embedded by an executable, fuel-structured digit printer.
-/

def natToDigitsAux : Nat → Nat → List Char
  | 0, _ => []
  | fuel + 1, n =>
    if n < 10 then [Nat.digitChar n]
    else natToDigitsAux fuel (n / 10) ++ [Nat.digitChar (n % 10)]

/-- Decimal digit list of a natural number, most significant digit first. -/
def natToDigits (n : Nat) : List Char := natToDigitsAux (n + 1) n

/-- Decimal string of a natural number, as JS renders a non-negative integer. -/
def natToString (n : Nat) : String := ⟨natToDigits n⟩

/-- Decimal string of an integer, as JS renders an integral number. -/
def intToString (i : Int) : String :=
  match i with
  | Int.ofNat m => natToString m
  | Int.negSucc m => "-" ++ natToString (m + 1)

theorem natToDigitsAux_agree : ∀ f1 f2 n : Nat, n < f1 → n < f2 →
    natToDigitsAux f1 n = natToDigitsAux f2 n := by
  intro f1
  induction f1 with
  | zero => intro f2 n h1 h2; omega
  | succ g1 ih =>
    intro f2 n h1 h2
    cases f2 with
    | zero => omega
    | succ g2 =>
      simp only [natToDigitsAux]
      by_cases h : n < 10
      · simp [h]
      · simp only [h, if_false]
        have hlt : n / 10 < n := Nat.div_lt_self (by omega) (by omega)
        rw [ih g2 (n / 10) (by omega) (by omega)]

theorem natToDigits_step (n : Nat) :
    natToDigits n = if n < 10 then [Nat.digitChar n]
      else natToDigits (n / 10) ++ [Nat.digitChar (n % 10)] := by
  conv_lhs => rw [show natToDigits n =
    (if n < 10 then [Nat.digitChar n]
      else natToDigitsAux n (n / 10) ++ [Nat.digitChar (n % 10)]) from rfl]
  by_cases h : n < 10
  · simp [h]
  · simp only [h, if_false]
    have hlt : n / 10 < n := Nat.div_lt_self (by omega) (by omega)
    rw [natToDigitsAux_agree n (n / 10 + 1) (n / 10) (by omega) (by omega)]
    rfl

theorem natToDigits_ne_nil (n : Nat) : natToDigits n ≠ [] := by
  rw [natToDigits_step]
  by_cases h : n < 10 <;> simp [h]

theorem digitChar_injOn : ∀ a, a < 10 → ∀ b, b < 10 →
    Nat.digitChar a = Nat.digitChar b → a = b := by decide

theorem digitChar_ne_dash : ∀ a, a < 10 → Nat.digitChar a ≠ '-' := by decide

theorem natToDigits_ne_dash (n : Nat) : ∀ c ∈ natToDigits n, c ≠ '-' := by
  induction n using Nat.strong_induction_on with
  | _ n ih =>
    rw [natToDigits_step]
    by_cases h : n < 10
    · simp only [h, if_true, List.mem_singleton]
      intro c hc
      subst hc
      exact digitChar_ne_dash n h
    · simp only [h, if_false, List.mem_append, List.mem_singleton]
      intro c hc
      rcases hc with hc | hc
      · exact ih (n / 10) (Nat.div_lt_self (by omega) (by omega)) c hc
      · subst hc
        exact digitChar_ne_dash (n % 10) (Nat.mod_lt _ (by omega))

theorem natToDigits_inj : ∀ m n : Nat, natToDigits m = natToDigits n → m = n := by
  intro m
  induction m using Nat.strong_induction_on with
  | _ m ih =>
    intro n h
    rw [natToDigits_step m, natToDigits_step n] at h
    by_cases hm : m < 10 <;> by_cases hn : n < 10
    · simp only [hm, hn, if_true, List.cons.injEq, and_true] at h
      exact digitChar_injOn m hm n hn h
    · exfalso
      simp only [hm, hn, if_true, if_false] at h
      have hlen := congrArg List.length h
      rw [List.length_append] at hlen
      simp only [List.length_cons, List.length_nil] at hlen
      have hpos : 0 < (natToDigits (n / 10)).length :=
        List.length_pos.mpr (natToDigits_ne_nil (n / 10))
      omega
    · exfalso
      simp only [hm, hn, if_true, if_false] at h
      have hlen := congrArg List.length h
      rw [List.length_append] at hlen
      simp only [List.length_cons, List.length_nil] at hlen
      have hpos : 0 < (natToDigits (m / 10)).length :=
        List.length_pos.mpr (natToDigits_ne_nil (m / 10))
      omega
    · simp only [hm, hn, if_false] at h
      have hlen := congrArg List.length h
      rw [List.length_append, List.length_append] at hlen
      simp only [List.length_cons, List.length_nil] at hlen
      obtain ⟨hinit, hlast⟩ := List.append_inj h (by omega)
      have hhead : Nat.digitChar (m % 10) = Nat.digitChar (n % 10) := by
        simpa using hlast
      have hmod : m % 10 = n % 10 :=
        digitChar_injOn _ (Nat.mod_lt _ (by omega)) _ (Nat.mod_lt _ (by omega)) hhead
      have hdiv : m / 10 = n / 10 :=
        ih (m / 10) (Nat.div_lt_self (by omega) (by omega)) (n / 10) hinit
      have e1 := Nat.div_add_mod m 10
      have e2 := Nat.div_add_mod n 10
      omega

theorem natToString_inj : ∀ m n : Nat, natToString m = natToString n → m = n := by
  intro m n h
  unfold natToString at h
  injection h with h
  exact natToDigits_inj m n h

theorem natToString_data (n : Nat) : (natToString n).data = natToDigits n := rfl

theorem intToString_inj : ∀ a b : Int, intToString a = intToString b → a = b := by
  intro a b h
  cases a with
  | ofNat m =>
    cases b with
    | ofNat n =>
      simp only [intToString] at h
      rw [natToString_inj m n h]
    | negSucc n =>
      exfalso
      simp only [intToString] at h
      have hd := congrArg String.data h
      have hd2 : natToDigits m = '-' :: natToDigits (n + 1) := hd
      have := natToDigits_ne_dash m '-' (by rw [hd2]; exact List.mem_cons_self _ _)
      exact this rfl
  | negSucc m =>
    cases b with
    | ofNat n =>
      exfalso
      simp only [intToString] at h
      have hd := congrArg String.data h
      have hd2 : '-' :: natToDigits (m + 1) = natToDigits n := hd
      have := natToDigits_ne_dash n '-' (by rw [← hd2]; exact List.mem_cons_self _ _)
      exact this rfl
    | negSucc n =>
      simp only [intToString] at h
      have hd := congrArg String.data h
      have hd2 : '-' :: natToDigits (m + 1) = '-' :: natToDigits (n + 1) := hd
      have h3 := natToDigits_inj (m + 1) (n + 1) (List.tail_eq_of_cons_eq hd2)
      have h4 : m = n := by omega
      rw [h4]

/-! ## Civil-calendar model of the JS Date values used by the component

The component manipulates dates only through year/month/day construction,
year extraction, day-of-week of January 1, and millisecond differences of
midnight dates (which are whole-day differences).  Dates are embedded as
year/month/day triples with the standard civil-from-days conversions; the
local-time/UTC distinction of the JS runtime is outside the model (all
dates are taken in one fixed zone).
-/

structure SimpleDate where
  year : Int
  month : Nat
  day : Nat
deriving DecidableEq, Repr

/-- Day count since 1970-01-01 of a civil date (Gregorian, proleptic). -/
def daysFromCivil (y : Int) (m d : Nat) : Int :=
  let yAdj : Int := if m ≤ 2 then y - 1 else y
  let era : Int := Int.ediv yAdj 400
  let yoe : Int := yAdj - era * 400
  let mp : Int := if 2 < m then (m : Int) - 3 else (m : Int) + 9
  let doy : Int := Int.ediv (153 * mp + 2) 5 + (d : Int) - 1
  let doe : Int := yoe * 365 + Int.ediv yoe 4 - Int.ediv yoe 100 + doy
  era * 146097 + doe - 719468

/-- Civil date of a day count since 1970-01-01 (inverse of daysFromCivil). -/
def civilFromDays (z0 : Int) : SimpleDate :=
  let z : Int := z0 + 719468
  let era : Int := Int.ediv z 146097
  let doe : Int := z - era * 146097
  let yoe : Int := Int.ediv (doe - Int.ediv doe 1460 + Int.ediv doe 36524 - Int.ediv doe 146096) 365
  let y : Int := yoe + era * 400
  let doy : Int := doe - (365 * yoe + Int.ediv yoe 4 - Int.ediv yoe 100)
  let mp : Int := Int.ediv (5 * doy + 2) 153
  let d : Int := doy - Int.ediv (153 * mp + 2) 5 + 1
  let m : Int := if mp < 10 then mp + 3 else mp - 9
  { year := if m ≤ 2 then y + 1 else y, month := m.toNat, day := d.toNat }

/-- JS getDay: day of week, 0 = Sunday (1970-01-01 was a Thursday, 4). -/
def jsGetDay (dt : SimpleDate) : Int :=
  Int.emod (daysFromCivil dt.year dt.month dt.day + 4) 7

/-- Embeds getWeekNumber of ForecastDataTable: Math.ceil of
(pastDaysOfYear + startOfYear.getDay() + 1) / 7, where pastDaysOfYear is the
whole-day difference between the date and January 1 of its year, via
Math.ceil of an integer quotient n / 7 being the floor of (n + 6) / 7. -/
def getWeekNumber (dt : SimpleDate) : Int :=
  let startDay := jsGetDay { year := dt.year, month := 1, day := 1 }
  let pastDaysOfYear := daysFromCivil dt.year dt.month dt.day - daysFromCivil dt.year 1 1
  Int.ediv (pastDaysOfYear + startDay + 1 + 6) 7

/-- Short month name, as toLocaleDateString with the short month option. -/
def monthShort (m : Nat) : String :=
  match m with
  | 1 => "Jan"
  | 2 => "Feb"
  | 3 => "Mar"
  | 4 => "Apr"
  | 5 => "May"
  | 6 => "Jun"
  | 7 => "Jul"
  | 8 => "Aug"
  | 9 => "Sep"
  | 10 => "Oct"
  | 11 => "Nov"
  | 12 => "Dec"
  | _ => ""

/-- Embeds the inner formatDate helper of getWeekDateRange. -/
def formatDate (dt : SimpleDate) : String :=
  natToString dt.day ++ " " ++ monthShort dt.month

/-- JS new Date(year, 0, day): January day of the year with day-of-month
rollover into adjacent months and years. -/
def jsNewDateJan (year : Int) (day : Int) : SimpleDate :=
  civilFromDays (daysFromCivil year 1 1 + (day - 1))

/-- Embeds getWeekDateRange of ForecastDataTable. -/
def getWeekDateRange (weekNumber : Int) (year : Int) : String :=
  let startDay := 1 + (weekNumber - 1) * 7
  let endDay := startDay + 6
  let weekStart := jsNewDateJan year startDay
  let weekEnd := jsNewDateJan year endDay
  formatDate weekStart ++ "-" ++ formatDate weekEnd

/-! ## Parsing of forecast_week strings

The component evaluates new Date(record.forecast_week); a malformed string
yields an Invalid Date whose week number is NaN, so the window test fails.
The parsing boundary is embedded as an explicit ISO year-month-day parser
returning none for malformed values.
-/

def splitDash : List Char → List (List Char)
  | [] => [[]]
  | c :: cs =>
    match splitDash cs with
    | [] => [[]]
    | g :: gs => if c = '-' then [] :: g :: gs else (c :: g) :: gs

def isDigitChar (c : Char) : Bool := decide ('0' ≤ c) && decide (c ≤ '9')

def digitVal (c : Char) : Nat := c.toNat - 48

def parseNatChars (cs : List Char) : Option Nat :=
  if cs ≠ [] ∧ cs.all isDigitChar then
    some (cs.foldl (fun a c => a * 10 + digitVal c) 0)
  else none

def isLeapYear (y : Int) : Bool :=
  (Int.emod y 4 == 0 && Int.emod y 100 != 0) || Int.emod y 400 == 0

def daysInMonth (y : Int) (m : Nat) : Nat :=
  match m with
  | 1 => 31
  | 2 => if isLeapYear y then 29 else 28
  | 3 => 31
  | 4 => 30
  | 5 => 31
  | 6 => 30
  | 7 => 31
  | 8 => 31
  | 9 => 30
  | 10 => 31
  | 11 => 30
  | 12 => 31
  | _ => 0

/-- Embeds the new Date(string) boundary at date-only granularity: a valid
ISO year-month-day string parses to its date, anything else is an Invalid
Date, represented as none. -/
def parseDate (s : String) : Option SimpleDate :=
  match splitDash s.data with
  | [ys, ms, ds] =>
    match parseNatChars ys, parseNatChars ms, parseNatChars ds with
    | some y, some m, some d =>
      if 1 ≤ m ∧ m ≤ 12 ∧ 1 ≤ d ∧ d ≤ daysInMonth (Int.ofNat y) m then
        some { year := Int.ofNat y, month := m, day := d }
      else none
    | _, _, _ => none
  | _ => none

/-! ## Data model (src/types/forecast.ts) -/

/-- One forecast record, after the ForecastRecord interface; numeric fields
are integral in this model, nullable fields are Option. -/
structure ForecastRecord where
  forecast_datetime : String
  forecast_run_id : String
  site_id : String
  brand : Option String
  mh_segment : Option String
  mh_family : Option String
  mh_class : Option String
  mh_brick : Option String
  product_id : Option String
  forecast_week : String
  actual_qty : Option Int
  predicted_qty : Int
  model_used : Option String
  qty_group : Option Int
  forecast_week_number : Option Int
  training_data_max_date : Option String
  forecast_horizon : Option Int
  created_at : Option String
deriving DecidableEq, Repr

/-- ForecastResponse of the backend: note there is no total_pages field. -/
structure ForecastResponse where
  data : List ForecastRecord
  total_records : Int
  page : Int
  page_size : Int
  has_next : Bool
deriving DecidableEq, Repr

/-! ## JS truthiness defaults used by the component -/

/-- JS expression v || dflt on a number (undefined is not possible here):
0 is falsy, every other integer is truthy. -/
def jsOrInt (v dflt : Int) : Int := if v = 0 then dflt else v

/-- JS expression v || dflt on a possibly-undefined number. -/
def jsOrUndef (v : Option Int) (dflt : Int) : Int :=
  match v with
  | none => dflt
  | some x => if x = 0 then dflt else x

/-- JS expression s || dflt on a nullable string: null and the empty string
are falsy. -/
def jsOrString (s : Option String) (dflt : String) : String :=
  match s with
  | none => dflt
  | some x => if x = "" then dflt else x

/-! ## Pivot builder (pivotData memo of ForecastDataTable)

A JS object keyed by strings is embedded as an insertion-ordered
association list; property assignment updates an existing key in place and
otherwise appends.  The JS Map rowsMap is embedded the same way.
-/

/-- Week column label: the template literal Week followed by the number. -/
def weekLabel (weekNumber : Int) : String := "Week " ++ intToString weekNumber

/-- The loop for i = 4 down to 0 pushing currentWeek - i. -/
def last5Weeks (currentWeek : Int) : List Int :=
  [currentWeek - 4, currentWeek - 3, currentWeek - 2, currentWeek - 1, currentWeek]

abbrev WeeksObj := List (String × Int)

/-- JS object property read obj[k]: some value or none for undefined. -/
def weeksGet (ws : WeeksObj) (k : String) : Option Int :=
  (ws.find? (fun p => p.1 == k)).map Prod.snd

/-- JS object property write obj[k] = v. -/
def weeksSet (ws : WeeksObj) (k : String) (v : Int) : WeeksObj :=
  if ws.any (fun p => p.1 == k) then
    ws.map (fun p => if p.1 == k then (k, v) else p)
  else ws ++ [(k, v)]

/-- One pivot row object; the source field _pageId is named pageId here. -/
structure PivotRow where
  mh_brick : String
  site_id : String
  weeks : WeeksObj
  pageId : String
deriving DecidableEq, Repr

structure WeekDescriptor where
  week : String
  dateRange : String
deriving DecidableEq, Repr

structure PivotResult where
  rows : List PivotRow
  weeks : List WeekDescriptor
deriving DecidableEq, Repr

abbrev RowsMap := List (String × PivotRow)

def mapHas (m : RowsMap) (k : String) : Bool := m.any (fun p => p.1 == k)

def mapUpdate (m : RowsMap) (k : String) (f : PivotRow → PivotRow) : RowsMap :=
  m.map (fun p => if p.1 == k then (p.1, f p.2) else p)

/-- The initialWeeks object: all last-5-week labels set to 0 by a forEach
of property assignments. -/
def initialWeeks (cw : Int) : WeeksObj :=
  (last5Weeks cw).foldl (fun acc weekNum => weeksSet acc (weekLabel weekNum) 0) []

/-- One iteration of the data.forEach(record => ...) body of pivotData.  An
invalid forecast_week gives weekNumber NaN, which the window set never
contains, so the record is skipped; that is the none branch here. -/
def pivotStep (cw : Int) (page : Nat) (m : RowsMap) (record : ForecastRecord) : RowsMap :=
  match parseDate record.forecast_week with
  | none => m
  | some weekDate =>
    let weekNumber := getWeekNumber weekDate
    if weekNumber ∈ last5Weeks cw then
      let key := jsOrString record.mh_brick "Unknown" ++ "-" ++ record.site_id
      let lbl := weekLabel weekNumber
      let m1 := if mapHas m key then m else
        m ++ [(key,
          { mh_brick := jsOrString record.mh_brick "Unknown"
            site_id := record.site_id
            weeks := initialWeeks cw
            pageId := natToString page ++ "-" ++ key })]
      mapUpdate m1 key (fun row =>
        { row with weeks := weeksSet row.weeks lbl (jsOrInt record.predicted_qty 0) })
    else m

/-- The completeWeeks object rebuilt per row: every last-5-week label set to
row.weeks[label] || 0 by a forEach of property assignments. -/
def completeWeeks (cw : Int) (row : PivotRow) : WeeksObj :=
  (last5Weeks cw).foldl
    (fun acc weekNum =>
      weeksSet acc (weekLabel weekNum) (jsOrUndef (weeksGet row.weeks (weekLabel weekNum)) 0))
    []

/-- Embeds the pivotData useMemo of ForecastDataTable.  sourceData is
currentData?.data (none when no response is available); currentDate stands
for the new Date() the component takes at evaluation time, and page is the
component page state captured by the memo. -/
def pivotData (sourceData : Option (List ForecastRecord)) (currentDate : SimpleDate)
    (page : Nat) : PivotResult :=
  match sourceData with
  | none => { rows := [], weeks := [] }
  | some data =>
    let currentYear := currentDate.year
    let currentWeek := getWeekNumber currentDate
    let rowsMap := data.foldl (pivotStep currentWeek page) []
    let weeksWithDates := (last5Weeks currentWeek).map fun weekNum =>
      { week := weekLabel weekNum, dateRange := getWeekDateRange weekNum currentYear : WeekDescriptor }
    let rows := rowsMap.map fun p => { p.2 with weeks := completeWeeks currentWeek p.2 }
    { rows := rows, weeks := weeksWithDates }

/-! ## Derived notions used in the claim statements -/

/-- Grouping key of a record: the template literal joining the brick (with
the Unknown fallback) and the site id with a dash. -/
def groupKey (r : ForecastRecord) : String :=
  jsOrString r.mh_brick "Unknown" ++ "-" ++ r.site_id

/-- Key recoverable from a produced pivot row. -/
def rowKey (row : PivotRow) : String := row.mh_brick ++ "-" ++ row.site_id

/-- Week number of a record as the pivot computes it, none when the
forecast_week string does not parse. -/
def recordWeek (r : ForecastRecord) : Option Int :=
  (parseDate r.forecast_week).map getWeekNumber

/-- Some week when the record survives the window filter (its week number is
one of the last 5 weeks), none when the pivot skips it. -/
def survWeek (cw : Int) (r : ForecastRecord) : Option Int :=
  match recordWeek r with
  | none => none
  | some w => if w ∈ last5Weeks cw then some w else none

/-- Row lookup in the produced pivot by group key. -/
def rowFor (res : PivotResult) (k : String) : Option PivotRow :=
  res.rows.find? (fun row => rowKey row == k)

/-- Last record of the list matching a group key and week, the one whose
predicted_qty the overwrite semantics keeps. -/
def lastMatch (cw : Int) (rs : List ForecastRecord) (k : String) (w : Int) :
    Option ForecastRecord :=
  rs.foldl (fun acc r => if groupKey r = k ∧ survWeek cw r = some w then some r else acc) none

/-- Final cell value of a group and week under the overwrite semantics. -/
def cellValue (cw : Int) (rs : List ForecastRecord) (k : String) (w : Int) : Int :=
  match lastMatch cw rs k w with
  | none => 0
  | some r => jsOrInt r.predicted_qty 0

/-! ## Basic lemmas about the embedded primitives -/

theorem string_data_inj (s t : String) (h : s.data = t.data) : s = t :=
  congrArg String.mk h

theorem jsOrInt_zero (v : Int) : jsOrInt v 0 = v := by
  unfold jsOrInt
  by_cases h : v = 0 <;> simp [h]

theorem jsOrUndef_some_zero (v : Int) : jsOrUndef (some v) 0 = v := by
  unfold jsOrUndef
  by_cases h : v = 0 <;> simp [h]

theorem weekLabel_injective : Function.Injective weekLabel := by
  intro a b h
  unfold weekLabel at h
  have hd := congrArg String.data h
  rw [String.data_append, String.data_append] at hd
  have h2 := List.append_cancel_left hd
  exact intToString_inj a b (string_data_inj _ _ h2)

theorem last5Weeks_nodup (cw : Int) : (last5Weeks cw).Nodup := by
  simp [last5Weeks]

theorem last5Weeks_labels_nodup (cw : Int) : ((last5Weeks cw).map weekLabel).Nodup :=
  (last5Weeks_nodup cw).map weekLabel_injective

theorem last5Weeks_mem_iff (cw w : Int) : w ∈ last5Weeks cw ↔ cw - 4 ≤ w ∧ w ≤ cw := by
  simp [last5Weeks]
  omega

/-! ## Association-list object lemmas -/

theorem find?_map_set_self (ps : WeeksObj) (k : String) (v : Int)
    (h : ps.any (fun p => p.1 == k) = true) :
    List.find? (fun p => p.1 == k) (ps.map (fun p => if p.1 == k then (k, v) else p)) =
      some (k, v) := by
  induction ps with
  | nil => simp at h
  | cons p ps ih =>
    simp only [List.map_cons]
    by_cases hp : (p.1 == k) = true
    · rw [List.find?_cons_of_pos _ (by simp [hp])]
      simp [hp]
    · rw [if_neg (by simp [hp])]
      rw [List.find?_cons_of_neg _ (by simp_all)]
      apply ih
      simp only [List.any_cons, hp, Bool.false_or] at h
      exact h

theorem find?_map_set_other (ps : WeeksObj) (k k2 : String) (v : Int) (hne : k2 ≠ k) :
    List.find? (fun p => p.1 == k2) (ps.map (fun p => if p.1 == k then (k, v) else p)) =
      List.find? (fun p => p.1 == k2) ps := by
  induction ps with
  | nil => rfl
  | cons p ps ih =>
    simp only [List.map_cons]
    by_cases hp : (p.1 == k) = true
    · have hpk : p.1 = k := by simpa using hp
      rw [if_pos (by simp [hp])]
      rw [List.find?_cons_of_neg _ (by simp; exact Ne.symm hne),
        List.find?_cons_of_neg _ (by simp [hpk]; exact Ne.symm hne)]
      exact ih
    · rw [if_neg (by simp [hp])]
      by_cases hq : (p.1 == k2) = true
      · rw [List.find?_cons_of_pos _ (by exact hq), List.find?_cons_of_pos _ (by exact hq)]
      · rw [List.find?_cons_of_neg _ (by simp_all), List.find?_cons_of_neg _ (by simp_all)]
        exact ih

theorem weeksSet_find_self (ws : WeeksObj) (k : String) (v : Int) :
    (weeksSet ws k v).find? (fun p => p.1 == k) = some (k, v) := by
  unfold weeksSet
  by_cases h : ws.any (fun p => p.1 == k) = true
  · rw [if_pos h]
    exact find?_map_set_self ws k v h
  · rw [if_neg h]
    have hnone : List.find? (fun p => p.1 == k) ws = none :=
      List.find?_eq_none.mpr (fun x hx hc => h (List.any_eq_true.mpr ⟨x, hx, hc⟩))
    rw [List.find?_append, hnone]
    simp

theorem weeksGet_set_self (ws : WeeksObj) (k : String) (v : Int) :
    weeksGet (weeksSet ws k v) k = some v := by
  unfold weeksGet
  rw [weeksSet_find_self]
  rfl

theorem weeksSet_find_other (ws : WeeksObj) (k k2 : String) (v : Int) (hne : k2 ≠ k) :
    (weeksSet ws k v).find? (fun p => p.1 == k2) = ws.find? (fun p => p.1 == k2) := by
  unfold weeksSet
  by_cases h : ws.any (fun p => p.1 == k) = true
  · rw [if_pos h]
    exact find?_map_set_other ws k k2 v hne
  · rw [if_neg h]
    rw [List.find?_append]
    have hone : List.find? (fun p => p.1 == k2) [(k, v)] = none := by
      simp
      exact Ne.symm hne
    rw [hone]
    cases List.find? (fun p => p.1 == k2) ws <;> rfl

theorem weeksGet_set_other (ws : WeeksObj) (k k2 : String) (v : Int) (hne : k2 ≠ k) :
    weeksGet (weeksSet ws k v) k2 = weeksGet ws k2 := by
  unfold weeksGet
  rw [weeksSet_find_other ws k k2 v hne]

theorem weeksSet_keys_present (ws : WeeksObj) (k : String) (v : Int)
    (h : k ∈ ws.map Prod.fst) :
    (weeksSet ws k v).map Prod.fst = ws.map Prod.fst := by
  have hany : ws.any (fun p => p.1 == k) = true := by
    rw [List.any_eq_true]
    obtain ⟨p, hp, hfst⟩ := List.mem_map.mp h
    exact ⟨p, hp, by simp [hfst]⟩
  unfold weeksSet
  simp only [hany, if_true, List.map_map]
  apply List.map_congr_left
  intro p _
  by_cases hp : (p.1 == k) = true
  · have : p.1 = k := by simpa using hp
    simp [hp, this]
  · simp only [Function.comp_apply, hp, if_false, Bool.false_eq_true]

theorem weeksSet_fresh (ws : WeeksObj) (k : String) (v : Int)
    (h : ∀ p ∈ ws, p.1 ≠ k) : weeksSet ws k v = ws ++ [(k, v)] := by
  unfold weeksSet
  have hany : ws.any (fun p => p.1 == k) = false := by
    rw [Bool.eq_false_iff]
    intro hc
    obtain ⟨p, hp, hk⟩ := List.any_eq_true.mp hc
    exact h p hp (by simpa using hk)
  simp [hany]

theorem foldl_weeksSet_eq_map (f : Int → String) (g : Int → Int) :
    ∀ (ws : List Int) (acc : WeeksObj), (ws.map f).Nodup →
    (∀ x ∈ ws, ∀ p ∈ acc, p.1 ≠ f x) →
    ws.foldl (fun a x => weeksSet a (f x) (g x)) acc = acc ++ ws.map (fun x => (f x, g x)) := by
  intro ws
  induction ws with
  | nil => intro acc _ _; simp
  | cons x xs ih =>
    intro acc hnd hfresh
    simp only [List.foldl_cons]
    rw [weeksSet_fresh acc (f x) (g x) (fun p hp => hfresh x (List.mem_cons_self x xs) p hp)]
    rw [List.map_cons, List.nodup_cons] at hnd
    rw [ih (acc ++ [(f x, g x)]) hnd.2]
    · simp
    · intro y hy p hp
      rcases List.mem_append.mp hp with hp | hp
      · exact hfresh y (List.mem_cons_of_mem x hy) p hp
      · rw [List.mem_singleton.mp hp]
        intro hc
        have hfe : f x = f y := hc
        exact hnd.1 (by rw [hfe]; exact List.mem_map_of_mem f hy)

theorem weeksGet_of_map (g : Int → Int) (ws : List Int) (w : Int)
    (hmem : w ∈ ws) :
    weeksGet (ws.map (fun x => (weekLabel x, g x))) (weekLabel w) = some (g w) := by
  induction ws with
  | nil => simp at hmem
  | cons x xs ih =>
    unfold weeksGet
    simp only [List.map_cons]
    by_cases hx : x = w
    · subst hx
      rw [List.find?_cons_of_pos _ (by simp)]
      rfl
    · rw [List.find?_cons_of_neg _ (by simp; exact fun hc => hx (weekLabel_injective hc))]
      rcases List.mem_cons.mp hmem with hm | hm
      · exact absurd hm.symm hx
      · exact ih hm

theorem initialWeeks_eq (cw : Int) :
    initialWeeks cw = (last5Weeks cw).map (fun w => (weekLabel w, (0 : Int))) := by
  unfold initialWeeks
  rw [foldl_weeksSet_eq_map weekLabel (fun _ => 0) (last5Weeks cw) []
    (last5Weeks_labels_nodup cw) (by simp)]
  simp

theorem completeWeeks_eq (cw : Int) (row : PivotRow) :
    completeWeeks cw row = (last5Weeks cw).map
      (fun w => (weekLabel w, jsOrUndef (weeksGet row.weeks (weekLabel w)) 0)) := by
  unfold completeWeeks
  rw [foldl_weeksSet_eq_map weekLabel
    (fun w => jsOrUndef (weeksGet row.weeks (weekLabel w)) 0) (last5Weeks cw) []
    (last5Weeks_labels_nodup cw) (by simp)]
  simp

/-! ## Characterization of one pivot iteration -/

/-- Row produced for a first-seen group key. -/
def newRow (cw : Int) (page : Nat) (r : ForecastRecord) : PivotRow :=
  { mh_brick := jsOrString r.mh_brick "Unknown"
    site_id := r.site_id
    weeks := initialWeeks cw
    pageId := natToString page ++ "-" ++ groupKey r }

/-- Cell overwrite applied to a row for a surviving record of week w. -/
def updRow (r : ForecastRecord) (w : Int) (row : PivotRow) : PivotRow :=
  { row with weeks := weeksSet row.weeks (weekLabel w) (jsOrInt r.predicted_qty 0) }

theorem rowKey_newRow (cw : Int) (page : Nat) (r : ForecastRecord) :
    rowKey (newRow cw page r) = groupKey r := rfl

theorem rowKey_updRow (r : ForecastRecord) (w : Int) (row : PivotRow) :
    rowKey (updRow r w row) = rowKey row := rfl

theorem survWeek_mem_window (cw : Int) (r : ForecastRecord) (w : Int)
    (h : survWeek cw r = some w) : w ∈ last5Weeks cw := by
  unfold survWeek at h
  cases hrw : recordWeek r with
  | none => rw [hrw] at h; simp at h
  | some w2 =>
    rw [hrw] at h
    simp only at h
    by_cases hm : w2 ∈ last5Weeks cw
    · rw [if_pos hm] at h
      exact (Option.some.inj h) ▸ hm
    · rw [if_neg hm] at h
      simp at h

theorem pivotStep_skip (cw : Int) (page : Nat) (m : RowsMap) (r : ForecastRecord)
    (h : survWeek cw r = none) : pivotStep cw page m r = m := by
  unfold pivotStep
  unfold survWeek recordWeek at h
  cases hp : parseDate r.forecast_week with
  | none => rfl
  | some d =>
    rw [hp] at h
    simp only [Option.map_some'] at h
    by_cases hm : getWeekNumber d ∈ last5Weeks cw
    · rw [if_pos hm] at h
      simp at h
    · simp only
      rw [if_neg hm]

theorem pivotStep_surv (cw : Int) (page : Nat) (m : RowsMap) (r : ForecastRecord) (w : Int)
    (h : survWeek cw r = some w) :
    pivotStep cw page m r =
      mapUpdate
        (if mapHas m (groupKey r) = true then m else m ++ [(groupKey r, newRow cw page r)])
        (groupKey r) (updRow r w) := by
  unfold pivotStep
  unfold survWeek recordWeek at h
  cases hp : parseDate r.forecast_week with
  | none => rw [hp] at h; simp at h
  | some d =>
    rw [hp] at h
    simp only [Option.map_some'] at h
    by_cases hm : getWeekNumber d ∈ last5Weeks cw
    · rw [if_pos hm] at h
      have hw : getWeekNumber d = w := Option.some.inj h
      subst hw
      simp only
      rw [if_pos hm]
      rfl
    · rw [if_neg hm] at h
      simp at h

/-! ## Rows-map lemmas -/

theorem mapHas_iff (m : RowsMap) (k : String) :
    mapHas m k = true ↔ ∃ p ∈ m, p.1 = k := by
  unfold mapHas
  rw [List.any_eq_true]
  constructor
  · rintro ⟨p, hp, he⟩
    exact ⟨p, hp, by simpa using he⟩
  · rintro ⟨p, hp, he⟩
    exact ⟨p, hp, by simp [he]⟩

theorem mapHas_false (m : RowsMap) (k : String) (h : mapHas m k = false) :
    ∀ p ∈ m, p.1 ≠ k := by
  intro p hp he
  have h2 := (mapHas_iff m k).mpr ⟨p, hp, he⟩
  rw [h2] at h
  cases h

theorem mapHas_mapUpdate (m : RowsMap) (k k2 : String) (f : PivotRow → PivotRow) :
    mapHas (mapUpdate m k f) k2 = mapHas m k2 := by
  unfold mapHas mapUpdate
  induction m with
  | nil => rfl
  | cons p ps ih =>
    simp only [List.map_cons, List.any_cons]
    rw [ih]
    by_cases hp : (p.1 == k) = true <;> simp [hp]

theorem mapUpdate_absent (m : RowsMap) (k : String) (f : PivotRow → PivotRow)
    (h : ∀ p ∈ m, p.1 ≠ k) : mapUpdate m k f = m := by
  unfold mapUpdate
  have h2 : m.map (fun p => if p.1 == k then (p.1, f p.2) else p) = m.map id :=
    List.map_congr_left (fun p hp => by simp [h p hp])
  rw [h2, List.map_id]

theorem mapUpdate_append (m l : RowsMap) (k : String) (f : PivotRow → PivotRow) :
    mapUpdate (m ++ l) k f = mapUpdate m k f ++ mapUpdate l k f :=
  List.map_append _ _ _

theorem mem_mapUpdate (m : RowsMap) (k : String) (f : PivotRow → PivotRow)
    (p : String × PivotRow) :
    p ∈ mapUpdate m k f ↔ ∃ q ∈ m, p = if q.1 == k then (q.1, f q.2) else q := by
  unfold mapUpdate
  rw [List.mem_map]
  constructor
  · rintro ⟨q, hq, he⟩
    exact ⟨q, hq, he.symm⟩
  · rintro ⟨q, hq, he⟩
    exact ⟨q, hq, he.symm⟩

theorem mapHas_append (a b : RowsMap) (k : String) :
    mapHas (a ++ b) k = (mapHas a k || mapHas b k) := List.any_append

/-! ## Last-match lemmas for the overwrite semantics -/

theorem lm_foldl_no_match (cw : Int) (k : String) (w : Int) :
    ∀ (rs : List ForecastRecord) (init : Option ForecastRecord),
    (∀ r ∈ rs, ¬(groupKey r = k ∧ survWeek cw r = some w)) →
    rs.foldl (fun acc r => if groupKey r = k ∧ survWeek cw r = some w then some r else acc)
      init = init := by
  intro rs
  induction rs with
  | nil => intro init _; rfl
  | cons r rs ih =>
    intro init h
    simp only [List.foldl_cons]
    rw [if_neg (h r (List.mem_cons_self r rs))]
    exact ih init (fun x hx => h x (List.mem_cons_of_mem r hx))

theorem lastMatch_append_one (cw : Int) (rs : List ForecastRecord) (r : ForecastRecord)
    (k : String) (w : Int) :
    lastMatch cw (rs ++ [r]) k w =
      if groupKey r = k ∧ survWeek cw r = some w then some r else lastMatch cw rs k w := by
  unfold lastMatch
  rw [List.foldl_append]
  rfl

theorem lastMatch_no_match (cw : Int) (rs : List ForecastRecord) (k : String) (w : Int)
    (h : ∀ r ∈ rs, ¬(groupKey r = k ∧ survWeek cw r = some w)) :
    lastMatch cw rs k w = none := lm_foldl_no_match cw k w rs none h

theorem lm_foldl_some (cw : Int) (k : String) (w : Int) :
    ∀ (rs : List ForecastRecord) (init : Option ForecastRecord) (r2 : ForecastRecord),
    rs.foldl (fun acc r => if groupKey r = k ∧ survWeek cw r = some w then some r else acc)
      init = some r2 →
    (r2 ∈ rs ∧ groupKey r2 = k ∧ survWeek cw r2 = some w) ∨ init = some r2 := by
  intro rs
  induction rs with
  | nil => intro init r2 h; exact Or.inr h
  | cons r rs ih =>
    intro init r2 h
    simp only [List.foldl_cons] at h
    rcases ih _ r2 h with h2 | h2
    · exact Or.inl ⟨List.mem_cons_of_mem r h2.1, h2.2⟩
    · by_cases hc : groupKey r = k ∧ survWeek cw r = some w
      · rw [if_pos hc] at h2
        cases Option.some.inj h2
        exact Or.inl ⟨List.mem_cons_self r rs, hc⟩
      · rw [if_neg hc] at h2
        exact Or.inr h2

theorem lastMatch_some (cw : Int) (rs : List ForecastRecord) (k : String) (w : Int)
    (r2 : ForecastRecord) (h : lastMatch cw rs k w = some r2) :
    r2 ∈ rs ∧ groupKey r2 = k ∧ survWeek cw r2 = some w := by
  rcases lm_foldl_some cw k w rs none r2 h with h2 | h2
  · exact h2
  · cases h2

theorem initialWeeks_keys (cw : Int) :
    (initialWeeks cw).map Prod.fst = (last5Weeks cw).map weekLabel := by
  rw [initialWeeks_eq, List.map_map]
  rfl

/-! ## Invariant of the rows map during the fold over records -/

structure PivotInv (cw : Int) (rs : List ForecastRecord) (m : RowsMap) : Prop where
  key_eq : ∀ p ∈ m, p.1 = rowKey p.2
  weeks_keys : ∀ p ∈ m, p.2.weeks.map Prod.fst = (last5Weeks cw).map weekLabel
  has_iff : ∀ k, mapHas m k = true ↔ ∃ r ∈ rs, (survWeek cw r).isSome ∧ groupKey r = k
  cell : ∀ p ∈ m, ∀ w ∈ last5Weeks cw,
    weeksGet p.2.weeks (weekLabel w) = some (cellValue cw rs p.1 w)

theorem cellValue_append_skip (cw : Int) (rs : List ForecastRecord) (r : ForecastRecord)
    (k : String) (w : Int) (h : ¬(groupKey r = k ∧ survWeek cw r = some w)) :
    cellValue cw (rs ++ [r]) k w = cellValue cw rs k w := by
  unfold cellValue
  rw [lastMatch_append_one, if_neg h]

theorem pivotInv_step (cw : Int) (page : Nat) (rs : List ForecastRecord) (m : RowsMap)
    (r : ForecastRecord) (inv : PivotInv cw rs m) :
    PivotInv cw (rs ++ [r]) (pivotStep cw page m r) := by
  cases hs : survWeek cw r with
  | none =>
    rw [pivotStep_skip cw page m r hs]
    refine ⟨inv.key_eq, inv.weeks_keys, ?_, ?_⟩
    · intro k
      rw [inv.has_iff k]
      constructor
      · rintro ⟨x, hx, hp⟩
        exact ⟨x, List.mem_append_left _ hx, hp⟩
      · rintro ⟨x, hx, hp⟩
        rcases List.mem_append.mp hx with hx | hx
        · exact ⟨x, hx, hp⟩
        · rw [List.mem_singleton.mp hx, hs] at hp
          simp at hp
    · intro p hp w hw
      rw [inv.cell p hp w hw, cellValue_append_skip]
      rintro ⟨-, hc2⟩
      rw [hs] at hc2
      cases hc2
  | some w0 =>
    rw [pivotStep_surv cw page m r w0 hs]
    have hw0 : w0 ∈ last5Weeks cw := survWeek_mem_window cw r w0 hs
    by_cases hhas : mapHas m (groupKey r) = true
    · rw [if_pos hhas]
      refine ⟨?_, ?_, ?_, ?_⟩
      · intro p hp
        obtain ⟨q, hq, he⟩ := (mem_mapUpdate m (groupKey r) (updRow r w0) p).mp hp
        subst he
        by_cases hqk : (q.1 == groupKey r) = true
        · simp only [hqk, if_true]
          rw [show rowKey (updRow r w0 q.2) = rowKey q.2 from rfl]
          exact inv.key_eq q hq
        · simp only [hqk, Bool.false_eq_true, if_false]
          exact inv.key_eq q hq
      · intro p hp
        obtain ⟨q, hq, he⟩ := (mem_mapUpdate m (groupKey r) (updRow r w0) p).mp hp
        subst he
        by_cases hqk : (q.1 == groupKey r) = true
        · simp only [hqk, if_true]
          show (weeksSet q.2.weeks (weekLabel w0) (jsOrInt r.predicted_qty 0)).map Prod.fst = _
          rw [weeksSet_keys_present]
          · exact inv.weeks_keys q hq
          · rw [inv.weeks_keys q hq]
            exact List.mem_map_of_mem weekLabel hw0
        · simp only [hqk, Bool.false_eq_true, if_false]
          exact inv.weeks_keys q hq
      · intro k
        rw [mapHas_mapUpdate, inv.has_iff k]
        constructor
        · rintro ⟨x, hx, hp⟩
          exact ⟨x, List.mem_append_left _ hx, hp⟩
        · rintro ⟨x, hx, hp⟩
          rcases List.mem_append.mp hx with hx | hx
          · exact ⟨x, hx, hp⟩
          · rw [List.mem_singleton.mp hx] at hp
            have hk : groupKey r = k := hp.2
            obtain ⟨y, hy, hyp⟩ := (inv.has_iff (groupKey r)).mp hhas
            exact ⟨y, hy, hyp.1, hk ▸ hyp.2⟩
      · intro p hp w hw
        obtain ⟨q, hq, he⟩ := (mem_mapUpdate m (groupKey r) (updRow r w0) p).mp hp
        subst he
        by_cases hqk : (q.1 == groupKey r) = true
        · have hq1 : q.1 = groupKey r := by simpa using hqk
          simp only [hqk, if_true]
          show weeksGet (weeksSet q.2.weeks (weekLabel w0) (jsOrInt r.predicted_qty 0))
            (weekLabel w) = some (cellValue cw (rs ++ [r]) q.1 w)
          by_cases hww : w = w0
          · subst hww
            rw [weeksGet_set_self]
            unfold cellValue
            rw [lastMatch_append_one, if_pos ⟨hq1.symm, hs⟩]
          · rw [weeksGet_set_other _ _ _ _ (fun hc => hww (weekLabel_injective hc))]
            rw [inv.cell q hq w hw, cellValue_append_skip]
            rintro ⟨-, hc2⟩
            rw [hs] at hc2
            exact hww (Option.some.inj hc2.symm)
        · simp only [hqk, Bool.false_eq_true, if_false]
          rw [inv.cell q hq w hw, cellValue_append_skip]
          rintro ⟨hc1, -⟩
          exact (by simpa using hqk : q.1 ≠ groupKey r) hc1.symm
    · rw [if_neg hhas]
      have hfalse : mapHas m (groupKey r) = false := by
        cases hb : mapHas m (groupKey r)
        · rfl
        · exact absurd hb hhas
      have habs : ∀ p ∈ m, p.1 ≠ groupKey r := mapHas_false m (groupKey r) hfalse
      rw [mapUpdate_append, mapUpdate_absent m (groupKey r) _ habs]
      have hone : mapUpdate [(groupKey r, newRow cw page r)] (groupKey r) (updRow r w0) =
          [(groupKey r, updRow r w0 (newRow cw page r))] := by
        unfold mapUpdate
        simp
      rw [hone]
      have hnomatch : ∀ w : Int, lastMatch cw rs (groupKey r) w = none := by
        intro w
        apply lastMatch_no_match
        rintro x hx ⟨hc1, hc2⟩
        have : mapHas m (groupKey r) = true :=
          (inv.has_iff (groupKey r)).mpr ⟨x, hx, by rw [hc2]; rfl, hc1⟩
        rw [this] at hfalse
        cases hfalse
      refine ⟨?_, ?_, ?_, ?_⟩
      · intro p hp
        rcases List.mem_append.mp hp with hp | hp
        · exact inv.key_eq p hp
        · rw [List.mem_singleton.mp hp]
          rfl
      · intro p hp
        rcases List.mem_append.mp hp with hp | hp
        · exact inv.weeks_keys p hp
        · rw [List.mem_singleton.mp hp]
          show (weeksSet (initialWeeks cw) (weekLabel w0) (jsOrInt r.predicted_qty 0)).map
            Prod.fst = _
          rw [weeksSet_keys_present]
          · exact initialWeeks_keys cw
          · rw [initialWeeks_keys cw]
            exact List.mem_map_of_mem weekLabel hw0
      · intro k
        rw [mapHas_append]
        constructor
        · intro h2
          rcases Bool.or_eq_true_iff.mp h2 with h2 | h2
          · obtain ⟨x, hx, hp⟩ := (inv.has_iff k).mp h2
            exact ⟨x, List.mem_append_left _ hx, hp⟩
          · have hk : groupKey r = k := by
              obtain ⟨p, hp, he⟩ := (mapHas_iff _ k).mp h2
              rw [List.mem_singleton.mp hp] at he
              exact he
            exact ⟨r, List.mem_append_right _ (List.mem_singleton_self r),
              by rw [hs]; rfl, hk⟩
        · rintro ⟨x, hx, hp⟩
          rcases List.mem_append.mp hx with hx | hx
          · exact Bool.or_eq_true_iff.mpr (Or.inl ((inv.has_iff k).mpr ⟨x, hx, hp⟩))
          · rw [List.mem_singleton.mp hx] at hp
            refine Bool.or_eq_true_iff.mpr (Or.inr ?_)
            rw [(mapHas_iff _ k)]
            exact ⟨(groupKey r, updRow r w0 (newRow cw page r)),
              List.mem_singleton_self _, hp.2⟩
      · intro p hp w hw
        rcases List.mem_append.mp hp with hp | hp
        · rw [inv.cell p hp w hw, cellValue_append_skip]
          rintro ⟨hc1, -⟩
          exact habs p hp hc1.symm
        · rw [List.mem_singleton.mp hp]
          show weeksGet (weeksSet (initialWeeks cw) (weekLabel w0) (jsOrInt r.predicted_qty 0))
            (weekLabel w) = some (cellValue cw (rs ++ [r]) (groupKey r) w)
          by_cases hww : w = w0
          · subst hww
            rw [weeksGet_set_self]
            unfold cellValue
            rw [lastMatch_append_one, if_pos ⟨rfl, hs⟩]
          · rw [weeksGet_set_other _ _ _ _ (fun hc => hww (weekLabel_injective hc))]
            rw [initialWeeks_eq, weeksGet_of_map (fun _ => (0 : Int)) _ w hw]
            unfold cellValue
            rw [lastMatch_append_one, if_neg]
            · rw [hnomatch w]
            · rintro ⟨-, hc2⟩
              rw [hs] at hc2
              exact hww (Option.some.inj hc2.symm)

theorem pivotInv_foldl (cw : Int) (page : Nat) (rs : List ForecastRecord) :
    PivotInv cw rs (rs.foldl (pivotStep cw page) []) := by
  induction rs using List.reverseRecOn with
  | nil =>
    refine ⟨?_, ?_, ?_, ?_⟩
    · intro p hp; cases hp
    · intro p hp; cases hp
    · intro k
      constructor
      · intro h; cases h
      · rintro ⟨x, hx, -⟩; cases hx
    · intro p hp; cases hp
  | append_singleton xs x ih =>
    rw [List.foldl_append]
    simp only [List.foldl_cons, List.foldl_nil]
    exact pivotInv_step cw page xs _ x ih

/-! ## Shape of the pivot output -/

theorem pivotData_some_rows (data : List ForecastRecord) (d : SimpleDate) (page : Nat) :
    (pivotData (some data) d page).rows =
      (data.foldl (pivotStep (getWeekNumber d) page) []).map
        (fun p => { p.2 with weeks := completeWeeks (getWeekNumber d) p.2 }) := rfl

theorem pivotData_some_weeks (data : List ForecastRecord) (d : SimpleDate) (page : Nat) :
    (pivotData (some data) d page).weeks =
      (last5Weeks (getWeekNumber d)).map (fun weekNum =>
        { week := weekLabel weekNum,
          dateRange := getWeekDateRange weekNum d.year : WeekDescriptor }) := rfl

theorem pivotResult_ext (a b : PivotResult) (h1 : a.rows = b.rows) (h2 : a.weeks = b.weeks) :
    a = b := by
  cases a
  cases b
  cases h1
  cases h2
  rfl

theorem pivotData_remove_skipped (pre post : List ForecastRecord) (r : ForecastRecord)
    (d : SimpleDate) (page : Nat) (h : survWeek (getWeekNumber d) r = none) :
    pivotData (some (pre ++ r :: post)) d page = pivotData (some (pre ++ post)) d page := by
  have hfold : (pre ++ r :: post).foldl (pivotStep (getWeekNumber d) page) [] =
      (pre ++ post).foldl (pivotStep (getWeekNumber d) page) [] := by
    rw [show pre ++ r :: post = (pre ++ [r]) ++ post by simp]
    rw [List.foldl_append, List.foldl_append, List.foldl_append]
    simp only [List.foldl_cons, List.foldl_nil]
    rw [pivotStep_skip _ _ _ _ h]
  apply pivotResult_ext
  · rw [pivotData_some_rows, pivotData_some_rows, hfold]
  · rw [pivotData_some_weeks, pivotData_some_weeks]

theorem row_weeks_char (data : List ForecastRecord) (d : SimpleDate) (page : Nat)
    (row : PivotRow) (hrow : row ∈ (pivotData (some data) d page).rows) :
    row.weeks = (last5Weeks (getWeekNumber d)).map
      (fun w => (weekLabel w, cellValue (getWeekNumber d) data (rowKey row) w)) := by
  rw [pivotData_some_rows] at hrow
  obtain ⟨p, hpm, he⟩ := List.mem_map.mp hrow
  have inv := pivotInv_foldl (getWeekNumber d) page data
  have hk : rowKey row = p.1 := by
    rw [← he]
    exact (inv.key_eq p hpm).symm
  have hweeks : row.weeks = completeWeeks (getWeekNumber d) p.2 := by
    rw [← he]
  rw [hweeks, hk, completeWeeks_eq]
  apply List.map_congr_left
  intro w hw
  rw [inv.cell p hpm w hw, jsOrUndef_some_zero]

theorem rowFor_some_key (res : PivotResult) (k : String) (row : PivotRow)
    (h : rowFor res k = some row) : rowKey row = k := by
  have := List.find?_some h
  simpa using this

theorem rowFor_some_mem (res : PivotResult) (k : String) (row : PivotRow)
    (h : rowFor res k = some row) : row ∈ res.rows :=
  List.mem_of_find?_eq_some h

theorem rowFor_isSome_iff (data : List ForecastRecord) (d : SimpleDate) (page : Nat)
    (k : String) :
    (rowFor (pivotData (some data) d page) k).isSome = true ↔
      mapHas (data.foldl (pivotStep (getWeekNumber d) page) []) k = true := by
  have inv := pivotInv_foldl (getWeekNumber d) page data
  unfold rowFor
  rw [List.find?_isSome, pivotData_some_rows]
  constructor
  · rintro ⟨row, hrow, hk⟩
    obtain ⟨p, hpm, he⟩ := List.mem_map.mp hrow
    rw [mapHas_iff]
    refine ⟨p, hpm, ?_⟩
    have hrk : rowKey row = p.1 := by
      rw [← he]
      exact (inv.key_eq p hpm).symm
    rw [← hrk]
    simpa using hk
  · intro h
    obtain ⟨p, hpm, he⟩ := (mapHas_iff _ k).mp h
    refine ⟨{ p.2 with weeks := completeWeeks (getWeekNumber d) p.2 },
      List.mem_map_of_mem _ hpm, ?_⟩
    have : rowKey { p.2 with weeks := completeWeeks (getWeekNumber d) p.2 } = p.1 :=
      (inv.key_eq p hpm).symm
    simp [this, he]

theorem surviving_has_row (data : List ForecastRecord) (d : SimpleDate) (page : Nat)
    (r : ForecastRecord) (w : Int) (hm : r ∈ data)
    (hs : survWeek (getWeekNumber d) r = some w) :
    (rowFor (pivotData (some data) d page) (groupKey r)).isSome = true := by
  rw [rowFor_isSome_iff]
  exact ((pivotInv_foldl (getWeekNumber d) page data).has_iff (groupKey r)).mpr
    ⟨r, hm, by rw [hs]; rfl, rfl⟩

/-! ## Dependence of the pivot on the page input

The _pageId field is the only part of the output that reads the page
state; stripping it makes the rows a function of (records, reference date)
alone.
-/

/-- Data content of a pivot row, without the presentation-only _pageId. -/
def rowData (row : PivotRow) : String × String × WeeksObj :=
  (row.mh_brick, row.site_id, row.weeks)

def projEntry (p : String × PivotRow) : String × (String × String × WeeksObj) :=
  (p.1, rowData p.2)

def completeWeeksOn (cw : Int) (ws : WeeksObj) : WeeksObj :=
  (last5Weeks cw).foldl
    (fun acc weekNum =>
      weeksSet acc (weekLabel weekNum) (jsOrUndef (weeksGet ws (weekLabel weekNum)) 0))
    []

theorem any_map_comp {α β : Type} (f : α → β) (p : β → Bool) (l : List α) :
    (l.map f).any p = l.any (fun a => p (f a)) := by
  induction l with
  | nil => rfl
  | cons x xs ih => simp only [List.map_cons, List.any_cons, ih]

theorem mapHas_of_proj (m1 m2 : RowsMap) (k : String)
    (h : m1.map projEntry = m2.map projEntry) : mapHas m1 k = mapHas m2 k := by
  unfold mapHas
  have h1 : (m1.map projEntry).any (fun q => q.1 == k) =
      (m2.map projEntry).any (fun q => q.1 == k) := by rw [h]
  rw [any_map_comp, any_map_comp] at h1
  exact h1

theorem mapUpdate_proj (m : RowsMap) (k : String) (r : ForecastRecord) (w : Int) :
    (mapUpdate m k (updRow r w)).map projEntry =
      (m.map projEntry).map (fun q => if q.1 == k then
        (q.1, (q.2.1, q.2.2.1, weeksSet q.2.2.2 (weekLabel w) (jsOrInt r.predicted_qty 0)))
        else q) := by
  unfold mapUpdate
  rw [List.map_map, List.map_map]
  apply List.map_congr_left
  intro p _
  by_cases hp : (p.1 == k) = true
  · simp only [Function.comp_apply, hp, if_true]
    show projEntry (p.1, updRow r w p.2) = _
    simp only [projEntry, rowData, updRow]
    simp [hp]
  · simp only [Function.comp_apply, hp, Bool.false_eq_true, if_false]
    show projEntry p = _
    simp only [projEntry, rowData]
    simp [hp]

theorem pivotStep_proj (cw : Int) (p1 p2 : Nat) (m1 m2 : RowsMap) (r : ForecastRecord)
    (h : m1.map projEntry = m2.map projEntry) :
    (pivotStep cw p1 m1 r).map projEntry = (pivotStep cw p2 m2 r).map projEntry := by
  cases hs : survWeek cw r with
  | none =>
    rw [pivotStep_skip _ _ _ _ hs, pivotStep_skip _ _ _ _ hs]
    exact h
  | some w0 =>
    rw [pivotStep_surv _ _ _ _ _ hs, pivotStep_surv _ _ _ _ _ hs]
    have hkeys := mapHas_of_proj m1 m2 (groupKey r) h
    by_cases hh : mapHas m2 (groupKey r) = true
    · rw [if_pos (by rw [hkeys]; exact hh), if_pos hh]
      rw [mapUpdate_proj, mapUpdate_proj, h]
    · rw [if_neg (by rw [hkeys]; exact hh), if_neg hh]
      rw [mapUpdate_proj, mapUpdate_proj]
      simp only [List.map_append]
      rw [h]
      rfl

theorem foldl_proj_page (cw : Int) (p1 p2 : Nat) (rs : List ForecastRecord) :
    ∀ m1 m2 : RowsMap, m1.map projEntry = m2.map projEntry →
    (rs.foldl (pivotStep cw p1) m1).map projEntry =
      (rs.foldl (pivotStep cw p2) m2).map projEntry := by
  induction rs with
  | nil => intro m1 m2 h; exact h
  | cons r rs ih =>
    intro m1 m2 h
    simp only [List.foldl_cons]
    exact ih _ _ (pivotStep_proj cw p1 p2 m1 m2 r h)

theorem pivotData_rows_proj (data : List ForecastRecord) (d : SimpleDate) (p1 p2 : Nat) :
    (pivotData (some data) d p1).rows.map rowData =
      (pivotData (some data) d p2).rows.map rowData := by
  rw [pivotData_some_rows, pivotData_some_rows]
  have key : ∀ (m : RowsMap),
      (m.map (fun p => { p.2 with weeks := completeWeeks (getWeekNumber d) p.2 })).map rowData =
        (m.map projEntry).map (fun q => (q.2.1, q.2.2.1,
          completeWeeksOn (getWeekNumber d) q.2.2.2)) := by
    intro m
    rw [List.map_map, List.map_map]
    apply List.map_congr_left
    intro p _
    rfl
  rw [key, key, foldl_proj_page (getWeekNumber d) p1 p2 data [] [] rfl]

/-! ## Query layer (useForecastData.ts, QueryProvider.tsx)

The hooks configure a third-party query library; the embedded parts are
the retry configuration, the query-key factory, the activeFilters object
construction of ForecastDataTable, the forecastParams remapping of
useSmartFilteredForecastData, and the pagination arithmetic of
useForecastDataWithBrick.
-/

/-- Error taxonomy of the specification for classifying a failed fetch. -/
inductive QueryError
  | network
  | server (status : Nat)
  | client (status : Nat)
deriving DecidableEq, Repr

/-- Numeric retry option configured by useForecastData and by the
query-client defaults of QueryProvider. -/
def forecastRetryCount : Nat := 1

/-- Fixed retryDelay in milliseconds configured alongside it. -/
def forecastRetryDelayMs : Nat := 2000

/-- Retry decision of the query layer.  The hooks pass the plain number 1
as the retry option, whose library contract is: retry while the failure
count is below the number, for every error alike.  No retry predicate
inspecting the error is configured anywhere, and ForecastService rethrows
every axios failure as a plain Error, erasing the status code. -/
def shouldRetry (failureCount : Nat) (_e : QueryError) : Bool :=
  decide (failureCount < forecastRetryCount)

/-! ## Filter state and cache keys -/

inductive FilterValue
  | str (v : String)
  | num (v : Int)
deriving DecidableEq, Repr

abbrev FilterObj := List (String × FilterValue)

/-- Filter-related component state of ForecastDataTable feeding the
activeFilters memo.  The optional fields model the partial
dateRangeFilter/quantityRangeFilter objects. -/
structure FilterComponentState where
  searchTerm : String
  zoneFilter : String
  stateFilter : String
  cityFilter : String
  storeFilter : String
  formatFilter : String
  brandFilter : String
  dateStart : Option String
  dateEnd : Option String
  qtyMin : Option Int
  qtyMax : Option Int
  limit : Int
  page : Int
deriving DecidableEq, Repr

/-- Embeds the activeFilters useMemo of ForecastDataTable: limit and offset
always present, each filter field added only when truthy (strings) or
defined (quantity bounds), in source order. -/
def activeFilters (st : FilterComponentState) : FilterObj :=
  let fs : FilterObj := [("limit", FilterValue.num st.limit),
    ("offset", FilterValue.num ((st.page - 1) * st.limit))]
  let fs := if st.searchTerm ≠ "" then fs ++ [("search_term", FilterValue.str st.searchTerm)]
    else fs
  let fs := if st.zoneFilter ≠ "" then fs ++ [("zone", FilterValue.str st.zoneFilter)] else fs
  let fs := if st.stateFilter ≠ "" then fs ++ [("state", FilterValue.str st.stateFilter)] else fs
  let fs := if st.cityFilter ≠ "" then fs ++ [("city", FilterValue.str st.cityFilter)] else fs
  let fs := if st.storeFilter ≠ "" then fs ++ [("site_id", FilterValue.str st.storeFilter)]
    else fs
  let fs := if st.formatFilter ≠ "" then fs ++ [("format", FilterValue.str st.formatFilter)]
    else fs
  let fs := if st.brandFilter ≠ "" then fs ++ [("brand", FilterValue.str st.brandFilter)] else fs
  let fs := match st.dateStart with
    | some s => if s ≠ "" then fs ++ [("start_date", FilterValue.str s)] else fs
    | none => fs
  let fs := match st.dateEnd with
    | some s => if s ≠ "" then fs ++ [("end_date", FilterValue.str s)] else fs
    | none => fs
  let fs := match st.qtyMin with
    | some v => fs ++ [("min_predicted_qty", FilterValue.num v)]
    | none => fs
  let fs := match st.qtyMax with
    | some v => fs ++ [("max_predicted_qty", FilterValue.num v)]
    | none => fs
  fs

def lookupF (fs : FilterObj) (k : String) : Option FilterValue :=
  (fs.find? (fun p => p.1 == k)).map Prod.snd

/-- JS truthiness of a possibly-absent filter value. -/
def truthyF (v : Option FilterValue) : Bool :=
  match v with
  | none => false
  | some (FilterValue.str s) => s ≠ ""
  | some (FilterValue.num n) => n ≠ 0

def addIfTruthy (ps : FilterObj) (src : FilterObj) (k : String) : FilterObj :=
  match lookupF src k with
  | some v => if truthyF (some v) then ps ++ [(k, v)] else ps
  | none => ps

def addIfDefined (ps : FilterObj) (src : FilterObj) (k : String) : FilterObj :=
  match lookupF src k with
  | some v => ps ++ [(k, v)]
  | none => ps

/-- Embeds the forecastParams useMemo of useSmartFilteredForecastData:
fields copied to a fresh params object in source order, truthiness-guarded
except the undefined-guarded quantity bounds and offset. -/
def forecastParams (filters : FilterObj) : FilterObj :=
  let ps : FilterObj := []
  let ps := addIfTruthy ps filters "search_term"
  let ps := addIfTruthy ps filters "zone"
  let ps := addIfTruthy ps filters "state"
  let ps := addIfTruthy ps filters "city"
  let ps := addIfTruthy ps filters "site_id"
  let ps := addIfTruthy ps filters "format"
  let ps := addIfTruthy ps filters "mh_brick"
  let ps := addIfTruthy ps filters "brand"
  let ps := addIfTruthy ps filters "start_date"
  let ps := addIfTruthy ps filters "end_date"
  let ps := addIfDefined ps filters "min_predicted_qty"
  let ps := addIfDefined ps filters "max_predicted_qty"
  let ps := addIfTruthy ps filters "limit"
  let ps := addIfDefined ps filters "offset"
  ps

/-- One element of a query key. -/
inductive QueryKeyPart
  | str (s : String)
  | params (p : FilterObj)
deriving DecidableEq, Repr

/-- forecastKeys.all of the query-key factory. -/
def forecastKeys_all : List QueryKeyPart := [QueryKeyPart.str "forecast"]

/-- forecastKeys.lists of the query-key factory. -/
def forecastKeys_lists : List QueryKeyPart := forecastKeys_all ++ [QueryKeyPart.str "list"]

/-- forecastKeys.list of the query-key factory. -/
def forecastKeys_list (p : FilterObj) : List QueryKeyPart :=
  forecastKeys_lists ++ [QueryKeyPart.params p]

/-- Cache key derived for the filtered table data: the component builds
activeFilters from its filter state, useSmartFilteredForecastData remaps it
to forecastParams and keys the query by forecastKeys.list of the result. -/
def smartQueryKey (st : FilterComponentState) : List QueryKeyPart :=
  forecastKeys_list (forecastParams (activeFilters st))

/-! ## Pagination of useForecastDataWithBrick -/

/-- ForecastResponse declares no total_pages field, so the property access
forecastQuery.data?.total_pages evaluates to undefined in the hook. -/
def responseTotalPages (_ : ForecastResponse) : Option Int := none

/-- totalPages of useForecastDataWithBrick:
forecastQuery.data?.total_pages || 1. -/
def hookTotalPages (data : Option ForecastResponse) : Int :=
  jsOrUndef (data.bind responseTotalPages) 1

/-- hasNextPage of useForecastDataWithBrick: page < totalPages. -/
def hookHasNextPage (page : Int) (data : Option ForecastResponse) : Bool :=
  decide (page < hookTotalPages data)

/-- prefetchNextPage guard: the queued prefetch runs only when
hasNextPage && enabled. -/
def hookPrefetchIssued (page : Int) (enabled : Bool) (data : Option ForecastResponse) : Bool :=
  hookHasNextPage page data && enabled

/-! ## Concrete sample inputs for counterexamples and witnesses -/

def sampleDate : SimpleDate := { year := 2024, month := 2, day := 15 }

def sampleRecord : ForecastRecord where
  forecast_datetime := ""
  forecast_run_id := ""
  site_id := "S1"
  brand := none
  mh_segment := none
  mh_family := none
  mh_class := none
  mh_brick := some "A"
  product_id := none
  forecast_week := "2024-02-15"
  actual_qty := none
  predicted_qty := 10
  model_used := none
  qty_group := none
  forecast_week_number := none
  training_data_max_date := none
  forecast_horizon := none
  created_at := none

def sampleDashBrick : ForecastRecord :=
  { sampleRecord with mh_brick := some "A-B", site_id := "C" }

def sampleDashSite : ForecastRecord :=
  { sampleRecord with mh_brick := some "A", site_id := "B-C", predicted_qty := 7 }

def sampleOldRecord : ForecastRecord :=
  { sampleRecord with forecast_week := "2024-01-01", predicted_qty := 3 }

def sampleBadRecord : ForecastRecord :=
  { sampleRecord with forecast_week := "not-a-date", predicted_qty := 4 }

def sampleCollider : ForecastRecord :=
  { sampleRecord with predicted_qty := 25 }

/-! ## Claim theorems -/

/-- C1: a record whose computed week number (by the same week-numbering
function applied to the reference date) is outside the 5-week target
window from currentWeek-4 to currentWeek contributes to no cell of any
output pivot row: the pivot of the record list with the record removed is
identical. -/
theorem claim1_window_exclusion (pre post : List ForecastRecord) (r : ForecastRecord)
    (d : SimpleDate) (page : Nat)
    (h : ∀ dt, parseDate r.forecast_week = some dt →
      getWeekNumber dt < getWeekNumber d - 4 ∨ getWeekNumber d < getWeekNumber dt) :
    pivotData (some (pre ++ r :: post)) d page = pivotData (some (pre ++ post)) d page := by
  apply pivotData_remove_skipped
  unfold survWeek recordWeek
  cases hp : parseDate r.forecast_week with
  | none => rfl
  | some dt =>
    simp only [Option.map_some']
    rw [if_neg]
    intro hmem
    rw [last5Weeks_mem_iff] at hmem
    rcases h dt hp with h2 | h2 <;> omega

/-- C2: every produced pivot row has a weeks object with exactly 5 entries,
one per label of the target window, and any in-window week with no
surviving record of the row's group holds the value 0. -/
theorem claim2_completeness_zero_fill (records : List ForecastRecord) (d : SimpleDate)
    (page : Nat) (row : PivotRow)
    (hrow : row ∈ (pivotData (some records) d page).rows) :
    row.weeks.length = 5 ∧
    row.weeks.map Prod.fst = (last5Weeks (getWeekNumber d)).map weekLabel ∧
    (∀ w ∈ last5Weeks (getWeekNumber d),
      (∀ r ∈ records, ¬(groupKey r = rowKey row ∧ survWeek (getWeekNumber d) r = some w)) →
      weeksGet row.weeks (weekLabel w) = some 0) := by
  have hchar := row_weeks_char records d page row hrow
  refine ⟨?_, ?_, ?_⟩
  · rw [hchar]
    simp [last5Weeks]
  · rw [hchar, List.map_map]
    rfl
  · intro w hw hnone
    rw [hchar, weeksGet_of_map _ _ w hw]
    unfold cellValue
    rw [lastMatch_no_match _ _ _ _ hnone]

/-- C3: when several surviving records share the group pair and the
computed week, the produced cell holds the predicted_qty of the last such
record in input order (overwrite, not summation). -/
theorem claim3_last_write_wins (l1 l2 l3 : List ForecastRecord) (r1 r2 : ForecastRecord)
    (d : SimpleDate) (page : Nat) (w : Int)
    (h1 : survWeek (getWeekNumber d) r1 = some w)
    (h2 : survWeek (getWeekNumber d) r2 = some w)
    (hpair : (r1.mh_brick.getD "Unknown", r1.site_id) =
      (r2.mh_brick.getD "Unknown", r2.site_id))
    (hlast : ∀ r ∈ l3, ¬(groupKey r = groupKey r2 ∧ survWeek (getWeekNumber d) r = some w)) :
    (rowFor (pivotData (some (l1 ++ r1 :: l2 ++ r2 :: l3)) d page) (groupKey r2)).bind
      (fun row => weeksGet row.weeks (weekLabel w)) = some r2.predicted_qty := by
  have hw : w ∈ last5Weeks (getWeekNumber d) := survWeek_mem_window _ r2 w h2
  have hmem : r2 ∈ l1 ++ r1 :: l2 ++ r2 :: l3 := by simp
  have hsome := surviving_has_row (l1 ++ r1 :: l2 ++ r2 :: l3) d page r2 w hmem h2
  cases hr : rowFor (pivotData (some (l1 ++ r1 :: l2 ++ r2 :: l3)) d page) (groupKey r2) with
  | none => rw [hr] at hsome; cases hsome
  | some row =>
    have hrk := rowFor_some_key _ _ _ hr
    have hrm := rowFor_some_mem _ _ _ hr
    have hchar := row_weeks_char (l1 ++ r1 :: l2 ++ r2 :: l3) d page row hrm
    show weeksGet row.weeks (weekLabel w) = some r2.predicted_qty
    rw [hchar, weeksGet_of_map _ _ w hw, hrk]
    have hlm : lastMatch (getWeekNumber d) (l1 ++ r1 :: l2 ++ r2 :: l3) (groupKey r2) w =
        some r2 := by
      rw [show l1 ++ r1 :: l2 ++ r2 :: l3 = (l1 ++ r1 :: l2) ++ r2 :: l3 by simp]
      unfold lastMatch
      rw [List.foldl_append, List.foldl_cons]
      rw [if_pos ⟨rfl, h2⟩]
      exact lm_foldl_no_match _ _ _ l3 (some r2) hlast
    unfold cellValue
    rw [hlm]
    show some (jsOrInt r2.predicted_qty 0) = some r2.predicted_qty
    rw [jsOrInt_zero]

/-- C4 counterexample: two surviving records with distinct
(mh_brick ?? Unknown, site_id) pairs collapse into a single pivot row,
because the dash-joined key string conflates brick A-B with site C and
brick A with site B-C. -/
theorem claim4_counterexample :
    (sampleDashBrick.mh_brick.getD "Unknown", sampleDashBrick.site_id) ≠
      (sampleDashSite.mh_brick.getD "Unknown", sampleDashSite.site_id) ∧
    survWeek (getWeekNumber sampleDate) sampleDashBrick = some 7 ∧
    survWeek (getWeekNumber sampleDate) sampleDashSite = some 7 ∧
    (pivotData (some [sampleDashBrick, sampleDashSite]) sampleDate 1).rows.length = 1 := by
  decide

/-- C4 amended: two surviving records contribute to the same pivot row
exactly when their dash-joined key strings agree; every surviving record
has a row for its key, and row lookups by two keys coincide iff the key
strings are equal (agreement on the pair implies this, but distinct pairs
can collide). -/
theorem claim4_amended_grouping (records : List ForecastRecord) (d : SimpleDate) (page : Nat)
    (r1 r2 : ForecastRecord) (w1 w2 : Int)
    (hm1 : r1 ∈ records) (hm2 : r2 ∈ records)
    (hs1 : survWeek (getWeekNumber d) r1 = some w1)
    (hs2 : survWeek (getWeekNumber d) r2 = some w2) :
    (rowFor (pivotData (some records) d page) (groupKey r1)).isSome = true ∧
    (rowFor (pivotData (some records) d page) (groupKey r2)).isSome = true ∧
    (rowFor (pivotData (some records) d page) (groupKey r1) =
      rowFor (pivotData (some records) d page) (groupKey r2) ↔ groupKey r1 = groupKey r2) := by
  have h1 := surviving_has_row records d page r1 w1 hm1 hs1
  have h2 := surviving_has_row records d page r2 w2 hm2 hs2
  refine ⟨h1, h2, ?_, ?_⟩
  · intro he
    cases hr1 : rowFor (pivotData (some records) d page) (groupKey r1) with
    | none => rw [hr1] at h1; cases h1
    | some row =>
      have hk1 := rowFor_some_key _ _ _ hr1
      have hk2 := rowFor_some_key _ _ _ (he ▸ hr1)
      rw [← hk1, ← hk2]
  · intro he
    rw [he]

/-- C5 counterexample: the retry decision of the query layer retries a
client-error failure (404 and 422 alike) on the first failure, refuting
that client errors are never retried. -/
theorem claim5_counterexample :
    shouldRetry 0 (QueryError.client 404) = true ∧
    shouldRetry 0 (QueryError.client 422) = true := ⟨rfl, rfl⟩

/-- C5 amended: on a failed fetch the query layer retries exactly once
with a fixed 2000 ms delay, and the retry decision is independent of the
error kind: network, server and client errors are all retried the same
bounded way. -/
theorem claim5_amended_retry (failureCount : Nat) (e e2 : QueryError) :
    shouldRetry failureCount e = decide (failureCount < 1) ∧
    shouldRetry failureCount e = shouldRetry failureCount e2 ∧
    forecastRetryDelayMs = 2000 := ⟨rfl, rfl, rfl⟩

/-- C6: the pivot of an empty record list has no rows while the weeks
descriptor array still has exactly 5 entries. -/
theorem claim6_empty_input (d : SimpleDate) (page : Nat) :
    (pivotData (some []) d page).rows = [] ∧
    (pivotData (some []) d page).weeks.length = 5 := by
  constructor
  · rw [pivotData_some_rows]
    rfl
  · rw [pivotData_some_weeks]
    simp [last5Weeks]

/-- C7: a record whose forecast_week does not parse contributes to no row
(removing it leaves the pivot unchanged), and the pivot still returns a
complete result with all 5 week descriptors rather than failing. -/
theorem claim7_malformed_excluded (pre post : List ForecastRecord) (r : ForecastRecord)
    (d : SimpleDate) (page : Nat) (h : parseDate r.forecast_week = none) :
    pivotData (some (pre ++ r :: post)) d page = pivotData (some (pre ++ post)) d page ∧
    (pivotData (some (pre ++ r :: post)) d page).weeks.length = 5 := by
  constructor
  · apply pivotData_remove_skipped
    unfold survWeek recordWeek
    rw [h]
    rfl
  · rw [pivotData_some_weeks]
    simp [last5Weeks]

/-- C8 counterexample: the memoized pivot also reads the page state (the
_pageId field of each row is the template literal page-dash-key), so two
invocations with identical records and reference date but different pages
give different outputs, refuting that the output is a function of
(records, referenceDate, N) alone. -/
theorem claim8_counterexample :
    pivotData (some [sampleRecord]) sampleDate 1 ≠
      pivotData (some [sampleRecord]) sampleDate 2 := by
  decide

/-- C8 amended: the pivot is a pure deterministic function of
(records, referenceDate, page): with equal records and reference date the
week descriptors and the rows stripped of their _pageId field are already
identical for any two pages, and with the page also equal the whole
outputs are identical. -/
theorem claim8_amended_purity (sd1 sd2 : Option (List ForecastRecord))
    (d1 d2 : SimpleDate) (p1 p2 : Nat) (h1 : sd1 = sd2) (h2 : d1 = d2) :
    (pivotData sd1 d1 p1).weeks = (pivotData sd2 d2 p2).weeks ∧
    (pivotData sd1 d1 p1).rows.map rowData = (pivotData sd2 d2 p2).rows.map rowData ∧
    (p1 = p2 → pivotData sd1 d1 p1 = pivotData sd2 d2 p2) := by
  subst h1
  subst h2
  refine ⟨?_, ?_, fun hp => by rw [hp]⟩
  · cases sd1 with
    | none => rfl
    | some data => rw [pivotData_some_weeks, pivotData_some_weeks]
  · cases sd1 with
    | none => rfl
    | some data => exact pivotData_rows_proj data d1 p1 p2

/-- C9: field-wise equal filter states produce identical cache keys: the
activeFilters object, its forecastParams remapping and the
forecastKeys.list query key coincide, so both states address the same
cache entry. -/
theorem claim9_cache_key_equality (s1 s2 : FilterComponentState)
    (h : s1.searchTerm = s2.searchTerm ∧ s1.zoneFilter = s2.zoneFilter ∧
      s1.stateFilter = s2.stateFilter ∧ s1.cityFilter = s2.cityFilter ∧
      s1.storeFilter = s2.storeFilter ∧ s1.formatFilter = s2.formatFilter ∧
      s1.brandFilter = s2.brandFilter ∧ s1.dateStart = s2.dateStart ∧
      s1.dateEnd = s2.dateEnd ∧ s1.qtyMin = s2.qtyMin ∧ s1.qtyMax = s2.qtyMax ∧
      s1.limit = s2.limit ∧ s1.page = s2.page) :
    smartQueryKey s1 = smartQueryKey s2 := by
  obtain ⟨h1, h2, h3, h4, h5, h6, h7, h8, h9, h10, h11, h12, h13⟩ := h
  have he : s1 = s2 := by
    cases s1
    cases s2
    simp_all
  rw [he]

/-- C10: ForecastResponse has no total_pages field, so for every response
value useForecastDataWithBrick computes totalPages = 1, hasNextPage =
false for every page of at least 1, and prefetchNextPage never issues a
next-page prefetch. -/
theorem claim10_no_next_page (resp : ForecastResponse) (page : Int) (enabled : Bool)
    (h : 1 ≤ page) :
    hookTotalPages (some resp) = 1 ∧
    hookHasNextPage page (some resp) = false ∧
    hookPrefetchIssued page enabled (some resp) = false := by
  have ht : hookTotalPages (some resp) = 1 := rfl
  have hn : hookHasNextPage page (some resp) = false := by
    unfold hookHasNextPage
    rw [ht]
    simp
    omega
  exact ⟨ht, hn, by unfold hookPrefetchIssued; rw [hn]; rfl⟩

/-! ## Witnesses: the claim theorems applied at concrete inputs -/

def sampleRow : PivotRow where
  mh_brick := "A"
  site_id := "S1"
  weeks := [("Week 3", 0), ("Week 4", 0), ("Week 5", 0), ("Week 6", 0), ("Week 7", 10)]
  pageId := "1-A-S1"

def sampleFilters1 : FilterComponentState where
  searchTerm := ""
  zoneFilter := ""
  stateFilter := ""
  cityFilter := ""
  storeFilter := "S1"
  formatFilter := ""
  brandFilter := "Acme"
  dateStart := none
  dateEnd := none
  qtyMin := some 5
  qtyMax := none
  limit := 50
  page := 2

def sampleFilters2 : FilterComponentState where
  searchTerm := ""
  zoneFilter := ""
  stateFilter := ""
  cityFilter := ""
  storeFilter := "S1"
  formatFilter := ""
  brandFilter := "Acme"
  dateStart := none
  dateEnd := none
  qtyMin := some 5
  qtyMax := none
  limit := 50
  page := 2

def sampleResponse : ForecastResponse where
  data := [sampleRecord]
  total_records := 120
  page := 1
  page_size := 50
  has_next := true

/-- Witness for C1: a record of week 1 is excluded when the current week
is 7. -/
theorem claim1_witness :
    pivotData (some ([] ++ sampleOldRecord :: [sampleRecord])) sampleDate 1 =
      pivotData (some ([] ++ [sampleRecord])) sampleDate 1 := by
  apply claim1_window_exclusion
  intro dt hdt
  have h0 : parseDate sampleOldRecord.forecast_week =
      some { year := 2024, month := 1, day := 1 } := by decide
  rw [h0] at hdt
  rw [← Option.some.inj hdt]
  decide

/-- Witness for C2 at a one-record input and its produced row. -/
theorem claim2_witness :
    sampleRow ∈ (pivotData (some [sampleRecord]) sampleDate 1).rows ∧
    (sampleRow.weeks.length = 5 ∧
      sampleRow.weeks.map Prod.fst =
        (last5Weeks (getWeekNumber sampleDate)).map weekLabel ∧
      (∀ w ∈ last5Weeks (getWeekNumber sampleDate),
        (∀ r ∈ [sampleRecord], ¬(groupKey r = rowKey sampleRow ∧
          survWeek (getWeekNumber sampleDate) r = some w)) →
        weeksGet sampleRow.weeks (weekLabel w) = some 0)) :=
  ⟨by decide, claim2_completeness_zero_fill [sampleRecord] sampleDate 1 sampleRow (by decide)⟩

/-- Witness for C3: two colliding records for the same group and week,
the later predicted_qty 25 wins. -/
theorem claim3_witness :
    survWeek (getWeekNumber sampleDate) sampleRecord = some 7 ∧
    survWeek (getWeekNumber sampleDate) sampleCollider = some 7 ∧
    (rowFor (pivotData (some ([] ++ sampleRecord :: [] ++ sampleCollider :: [])) sampleDate 1)
        (groupKey sampleCollider)).bind
      (fun row => weeksGet row.weeks (weekLabel 7)) = some sampleCollider.predicted_qty :=
  ⟨by decide, by decide,
    claim3_last_write_wins [] [] [] sampleRecord sampleCollider sampleDate 1 7
      (by decide) (by decide) (by decide) (by simp)⟩

/-- Witness for the amended C4 at the colliding sample records. -/
theorem claim4_witness :
    (rowFor (pivotData (some [sampleDashBrick, sampleDashSite]) sampleDate 1)
        (groupKey sampleDashBrick)).isSome = true ∧
    (rowFor (pivotData (some [sampleDashBrick, sampleDashSite]) sampleDate 1)
        (groupKey sampleDashSite)).isSome = true ∧
    (rowFor (pivotData (some [sampleDashBrick, sampleDashSite]) sampleDate 1)
        (groupKey sampleDashBrick) =
      rowFor (pivotData (some [sampleDashBrick, sampleDashSite]) sampleDate 1)
        (groupKey sampleDashSite) ↔
      groupKey sampleDashBrick = groupKey sampleDashSite) :=
  claim4_amended_grouping [sampleDashBrick, sampleDashSite] sampleDate 1
    sampleDashBrick sampleDashSite 7 7 (by decide) (by decide) (by decide) (by decide)

/-- Witness for C7: a malformed forecast_week record is dropped and the
result keeps its 5 week descriptors. -/
theorem claim7_witness :
    pivotData (some ([] ++ sampleBadRecord :: [sampleRecord])) sampleDate 1 =
      pivotData (some ([] ++ [sampleRecord])) sampleDate 1 ∧
    (pivotData (some ([] ++ sampleBadRecord :: [sampleRecord])) sampleDate 1).weeks.length =
      5 :=
  claim7_malformed_excluded [] [sampleRecord] sampleBadRecord sampleDate 1 (by decide)

/-- Witness for the amended C8 at pages 1 and 2. -/
theorem claim8_witness :
    (pivotData (some [sampleRecord]) sampleDate 1).weeks =
      (pivotData (some [sampleRecord]) sampleDate 2).weeks ∧
    (pivotData (some [sampleRecord]) sampleDate 1).rows.map rowData =
      (pivotData (some [sampleRecord]) sampleDate 2).rows.map rowData ∧
    ((1 : Nat) = 2 → pivotData (some [sampleRecord]) sampleDate 1 =
      pivotData (some [sampleRecord]) sampleDate 2) :=
  claim8_amended_purity (some [sampleRecord]) (some [sampleRecord]) sampleDate sampleDate
    1 2 rfl rfl

/-- Witness for C9 at two independently constructed equal filter states. -/
theorem claim9_witness : smartQueryKey sampleFilters1 = smartQueryKey sampleFilters2 :=
  claim9_cache_key_equality sampleFilters1 sampleFilters2 (by decide)

/-- Witness for C10 at a concrete response that even reports has_next. -/
theorem claim10_witness :
    hookTotalPages (some sampleResponse) = 1 ∧
    hookHasNextPage 3 (some sampleResponse) = false ∧
    hookPrefetchIssued 3 true (some sampleResponse) = false :=
  claim10_no_next_page sampleResponse 3 true (by decide)

end Impetus
